import Mathlib

/-
  Verification development for the streaming chat session engine of the
  iblai-js SDK (the useAdvancedChat hook).  The repository ships only the
  documentation and usage examples of this engine; the engine itself lives
  in the packages re-exported by the SDK.  Every definition below is
  therefore a shallow embedding modelled from the written specification of
  the engine: connection-independent frame decoding, per-session message
  assembly, tab/session multiplexing, cancellation and tool round trips.
-/

namespace IblChat

/-- Modelled from the spec: role of a Message, user or assistant. -/
inductive Role where
  | user
  | assistant
deriving DecidableEq, Repr

/-- Modelled from the spec: FileAttachment record with fileName, fileUrl, fileType. -/
structure FileAttachment where
  fileName : String
  fileUrl : String
  fileType : String
deriving DecidableEq, Repr

/-- Modelled from the spec: a chat Message.  The content accumulates delta
fragments while the owning session is streaming and is immutable once the
session reaches a terminal state.  The isError and isStopped flags record
the terminal transition that froze the message. -/
structure Message where
  role : Role
  content : String
  visible : Bool
  timestamp : Option String
  fileAttachments : List FileAttachment
  isError : Bool
  isStopped : Bool
deriving DecidableEq, Repr

/-- Modelled from the spec: a session identifier is either server-assigned
(a string carried by frames) or locally generated while the session awaits
confirmation by a start frame. -/
inductive SessionId where
  | server (s : String)
  | loc (n : Nat)
deriving DecidableEq, Repr

/-- Modelled from the spec: status of a ChatSession.  The assembler state
machine uses idle, pending, streaming and the terminal states complete,
stopped, errored; a completed session is idle for the next turn in the
sense that a new send is accepted on it. -/
inductive SessionStatus where
  | idle
  | pending
  | streaming
  | complete
  | stopped
  | errored
deriving DecidableEq, Repr

/-- Modelled from the spec: record of one tool invocation surfaced to the
caller, with its identifier and a resolved flag set once a result for it
has been submitted. -/
structure ToolCallRec where
  id : String
  tool : String
  resolved : Bool
deriving DecidableEq, Repr

/-- Modelled from the spec: a ChatSession bound to one tab, owning an
ordered sequence of messages and a status.  The suspended flag is the
tool-call sub-state in which content accumulation is paused until
submitToolResult re-enters streaming. -/
structure Session where
  sessionId : SessionId
  tab : String
  messages : List Message
  status : SessionStatus
  suspended : Bool
  toolCalls : List ToolCallRec
deriving DecidableEq, Repr

/-- Modelled from the spec: a PendingCancellation tracks an outstanding stop
request by sessionId and issue time until acknowledged or timed out. -/
structure PendingCancellation where
  sessionId : String
  issuedAt : Nat
  resolved : Bool
deriving DecidableEq, Repr

/-- Modelled from the spec: the decoded inbound frame variants of both
channels.  All frames carry the server-assigned sessionId.  The endf
variant is the end frame (end is a reserved word). -/
inductive Frame where
  | start (sessionId : String)
  | delta (sessionId : String) (content : String)
  | endf (sessionId : String)
  | error (sessionId : String) (err : String)
  | tool_call (sessionId : String) (toolCallId : String) (tool : String)
  | ack (sessionId : String)
deriving DecidableEq, Repr

/-- Modelled from the spec: the sessionId carried by a frame. -/
def Frame.sid : Frame → String
  | .start s => s
  | .delta s _ => s
  | .endf s => s
  | .error s _ => s
  | .tool_call s _ _ => s
  | .ack s => s

/-- Modelled from the spec: a raw inbound wire message before validation, a
bag of optional fields the codec inspects. -/
structure RawMessage where
  type : Option String
  sessionId : Option String
  content : Option String
  errDescriptor : Option String
  toolCallId : Option String
  tool : Option String
deriving DecidableEq, Repr

/-- Modelled from the spec: DecodeError taxonomy for rejected raw messages:
a missing sessionId, an unknown frame type, or a known type with a
malformed payload. -/
inductive DecodeError where
  | missingSessionId
  | unknownType
  | malformed
deriving DecidableEq, Repr

/-- Modelled from the spec: FrameCodec.decode validates a raw message into
a Frame or a DecodeError.  A raw message missing sessionId is rejected
before any type dispatch, an unrecognised type is an unknownType error, a
recognised type missing its required payload is malformed. -/
def decode (raw : RawMessage) : Except DecodeError Frame :=
  match raw.sessionId with
  | none => .error .missingSessionId
  | some sid =>
    match raw.type with
    | some "start" => .ok (.start sid)
    | some "delta" =>
      match raw.content with
      | some c => .ok (.delta sid c)
      | none => .error .malformed
    | some "end" => .ok (.endf sid)
    | some "error" =>
      match raw.errDescriptor with
      | some e => .ok (.error sid e)
      | none => .error .malformed
    | some "tool_call" =>
      match raw.toolCallId, raw.tool with
      | some tcid, some tl => .ok (.tool_call sid tcid tl)
      | _, _ => .error .malformed
    | some "ack" => .ok (.ack sid)
    | _ => .error .unknownType

/-- Modelled from the spec: the fresh empty assistant Message created by the
assembler when a start frame confirms a pending session. -/
def newAssistantMessage : Message :=
  { role := .assistant, content := "", visible := true, timestamp := none,
    fileAttachments := [], isError := false, isStopped := false }

/-- Modelled from the spec: apply a function to the last element of a list,
used by the assembler to mutate the in-progress message. -/
def modifyLast (g : Message → Message) : List Message → List Message
  | [] => []
  | [m] => [g m]
  | m :: ms => m :: modifyLast g ms

/-- Modelled from the spec: append one delta fragment to the content of the
in-progress message. -/
def appendContent (d : String) (m : Message) : Message :=
  { m with content := m.content ++ d }

/-- Modelled from the spec: set the isError flag when a generation error
terminates the session. -/
def markError (m : Message) : Message :=
  { m with isError := true }

/-- Modelled from the spec: set the isStopped flag when a cancellation
terminates the session. -/
def markStopped (m : Message) : Message :=
  { m with isStopped := true }

/-- Modelled from the spec: whether a frame for this server sessionId is
addressed to the given session.  A start frame is accepted by a pending
session that is either unconfirmed (local id, which it adopts) or already
confirmed with the same server id; every other frame requires an exact
server-id match.  Frames bearing a different sessionId than the currently
active one for a tab are discarded. -/
def startMatches (s : Session) (fsid : String) : Bool :=
  match s.sessionId with
  | .loc _ => true
  | .server sid => sid == fsid

/-- Modelled from the spec: the per-session assembler transition of the
MessageAssembler applied to the active session of one tab.  Pending plus a
matching start yields streaming with a fresh assistant message; streaming
plus delta appends the fragment unless tool-suspended; end, error and the
cancellation ack are terminal and freeze the content; tool_call suspends
accumulation and records the surfaced invocation.  Every non-matching or
wrongly-timed frame leaves the session untouched. -/
def Session.applyFrame (s : Session) (f : Frame) : Session :=
  match f with
  | .start fsid =>
    if s.status = .pending ∧ startMatches s fsid then
      { s with sessionId := .server fsid, status := .streaming,
               suspended := false,
               messages := s.messages ++ [newAssistantMessage] }
    else s
  | .delta fsid d =>
    if s.sessionId = .server fsid ∧ s.status = .streaming ∧ s.suspended = false then
      { s with messages := modifyLast (appendContent d) s.messages }
    else s
  | .endf fsid =>
    if s.sessionId = .server fsid ∧ s.status = .streaming then
      { s with status := .complete, suspended := false }
    else s
  | .error fsid _ =>
    if s.sessionId = .server fsid ∧ s.status = .streaming then
      { s with status := .errored, suspended := false,
               messages := modifyLast markError s.messages }
    else s
  | .tool_call fsid tcid tl =>
    if s.sessionId = .server fsid ∧ s.status = .streaming ∧ s.suspended = false then
      { s with suspended := true,
               toolCalls := s.toolCalls ++ [{ id := tcid, tool := tl, resolved := false }] }
    else s
  | .ack fsid =>
    if s.sessionId = .server fsid ∧ s.status = .streaming then
      { s with status := .stopped, suspended := false,
               messages := modifyLast markStopped s.messages }
    else s

/-- Modelled from the spec: the state the SessionRegistry keeps for one tab,
the currently active session plus the read-only history of detached
sessions. -/
structure TabState where
  active : Session
  history : List Session
deriving DecidableEq, Repr

/-- Modelled from the spec: inbound frames touch only the active session of
a tab; detached history sessions are read-only. -/
def TabState.applyFrame (tb : TabState) (f : Frame) : TabState :=
  { tb with active := tb.active.applyFrame f }

/-- Modelled from the spec: fold a receipt-ordered list of frames through
the assembler of one tab. -/
def TabState.processFrames (tb : TabState) (fs : List Frame) : TabState :=
  fs.foldl TabState.applyFrame tb

/-- Modelled from the spec: observable effects the engine emits towards the
two transports and the error-handler callback. -/
inductive Output where
  | sendCommand (tab : String) (content : String)
  | stopCommand (sessionId : String)
  | toolResultCommand (sessionId : String) (toolCallId : String) (result : String)
  | decodeErrorLog (e : DecodeError)
  | invalidToolResultLog
  | cancellationTimeoutLog (sessionId : String)
deriving DecidableEq, Repr

/-- Modelled from the spec: the events driving the single-threaded engine:
a raw inbound message on either channel, the caller actions sendMessage,
switchTab, startNewChat, stopGen and submitToolResult, and the bounded-wait
expiry of an outstanding cancellation. -/
inductive Event where
  | recv (raw : RawMessage)
  | send (tab : String) (content : String) (visible : Bool)
      (files : List FileAttachment)
  | switchTab (tab : String)
  | startNewChat (tab : String)
  | stopGen (sessionId : String)
  | submitToolResult (sessionId : String) (toolCallId : String) (result : String)
  | cancelTimeout (sessionId : String)

/-- Modelled from the spec: the full engine state.  Tabs are total over tab
names (a never-touched tab holds a fresh idle session); knownTabs lists
the names the caller has interacted with, nextLocalId feeds locally
generated session identifiers, now is the event-counting clock stamping
cancellations. -/
structure EngineState where
  tabs : String → TabState
  knownTabs : List String
  activeTab : String
  cancellations : List PendingCancellation
  nextLocalId : Nat
  now : Nat

/-- Modelled from the spec: the fresh session allocated for a tab, bound to
a locally generated identifier awaiting server confirmation. -/
def freshSession (tab : String) (n : Nat) (st : SessionStatus) : Session :=
  { sessionId := .loc n, tab := tab, messages := [], status := st,
    suspended := false, toolCalls := [] }

/-- Modelled from the spec: the initial engine state, every tab idle and
empty, the main tab active. -/
def initState : EngineState :=
  { tabs := fun t => { active := freshSession t 0 .idle, history := [] },
    knownTabs := [], activeTab := "chat", cancellations := [],
    nextLocalId := 1, now := 0 }

/-- Modelled from the spec: mark every outstanding cancellation carrying
this sessionId as resolved. -/
def resolveCancellations (sid : String)
    (pcs : List PendingCancellation) : List PendingCancellation :=
  pcs.map (fun pc => if pc.sessionId == sid then { pc with resolved := true } else pc)

/-- Modelled from the spec: a decoded frame is offered to the assembler of
every tab; the per-session match in Session.applyFrame makes each tab
accept only frames addressed to its active session.  An ack additionally
resolves the matching outstanding cancellation. -/
def EngineState.applyFrame (st : EngineState) (f : Frame) : EngineState :=
  let st' := { st with tabs := fun t => (st.tabs t).applyFrame f }
  match f with
  | .ack sid => { st' with cancellations := resolveCancellations sid st.cancellations }
  | _ => st'

/-- Modelled from the spec: fold a receipt-ordered list of decoded frames
through the engine. -/
def EngineState.processFrames (st : EngineState) (fs : List Frame) : EngineState :=
  fs.foldl EngineState.applyFrame st

/-- Modelled from the spec: whether a stop request for this sessionId is
still outstanding, neither acknowledged nor timed out. -/
def EngineState.hasOutstanding (st : EngineState) (sid : String) : Bool :=
  st.cancellations.any (fun pc => pc.sessionId == sid && !pc.resolved)

/-- Modelled from the spec: record a tab name the caller interacted with. -/
def addKnown (t : String) (ts : List String) : List String :=
  if t ∈ ts then ts else ts ++ [t]

/-- Modelled from the spec: the user Message the caller issues on a send. -/
def userMessage (content : String) (visible : Bool)
    (files : List FileAttachment) : Message :=
  { role := .user, content := content, visible := visible, timestamp := none,
    fileAttachments := files, isError := false, isStopped := false }

/-- Modelled from the spec: startNewChat detaches the current session into
a read-only history slot; a session detached while still pending or
streaming is locally finalised as stopped so that history sessions are
never live. -/
def detachSession (s : Session) : Session :=
  match s.status with
  | .pending => { s with status := .stopped, suspended := false }
  | .streaming => { s with status := .stopped, suspended := false }
  | _ => s

/-- Modelled from the spec: the tab, if any, whose active session carries
this confirmed server sessionId, searched over the tabs the caller has
interacted with. -/
def EngineState.findTabOf (st : EngineState) (sid : String) : Option String :=
  st.knownTabs.find? (fun t => (st.tabs t).active.sessionId == SessionId.server sid)

/-- Modelled from the spec: whether the active session holding this server
sessionId has an unresolved surfaced tool invocation with this id. -/
def EngineState.toolCallOpen (st : EngineState) (sid : String)
    (tcid : String) : Bool :=
  match st.findTabOf sid with
  | none => false
  | some t => (st.tabs t).active.toolCalls.any
      (fun tc => tc.id == tcid && !tc.resolved)

/-- Modelled from the spec: resolve one surfaced tool invocation and
re-enter streaming accumulation. -/
def Session.resolveTool (s : Session) (tcid : String) : Session :=
  { s with suspended := false,
           toolCalls := s.toolCalls.map
             (fun tc => if tc.id == tcid then { tc with resolved := true } else tc) }

/-- Modelled from the spec: the one-step transition of the engine on an
event, returning the next state and the outputs emitted.  A raw inbound
message is decoded and either dropped with a logged DecodeError or applied
as a frame; send appends the user message and re-pends the session unless
one is already pending or streaming on that tab; switchTab changes only the
active tab; startNewChat detaches the session into history and allocates a
fresh pending one under a new local id; stopGen is a no-op while a
cancellation for the session is outstanding, and otherwise records a
PendingCancellation and emits the stop command; submitToolResult validates
the tool-call-suspended sub-state and the unresolved toolCallId and is
otherwise an InvalidToolResult no-op; cancelTimeout forces the local
Stopped transition and resolves the cancellation. -/
def step (st : EngineState) (ev : Event) : EngineState × List Output :=
  let tick := fun (s : EngineState) => { s with now := s.now + 1 }
  match ev with
  | .recv raw =>
    match decode raw with
    | .error e => (st, [.decodeErrorLog e])
    | .ok f => (tick (st.applyFrame f), [])
  | .send tab content visible files =>
    let tb := st.tabs tab
    if tb.active.status = .pending ∨ tb.active.status = .streaming then
      (tick st, [])
    else
      (tick { st with
          tabs := fun t => if t = tab then
              { tb with active := { tb.active with
                  messages := tb.active.messages ++ [userMessage content visible files],
                  status := .pending, suspended := false } }
            else st.tabs t,
          knownTabs := addKnown tab st.knownTabs },
        [.sendCommand tab content])
  | .switchTab tab => (tick { st with activeTab := tab }, [])
  | .startNewChat tab =>
    let tb := st.tabs tab
    (tick { st with
        tabs := fun t => if t = tab then
            { active := freshSession tab st.nextLocalId .pending,
              history := tb.history ++ [detachSession tb.active] }
          else st.tabs t,
        knownTabs := addKnown tab st.knownTabs,
        nextLocalId := st.nextLocalId + 1 }, [])
  | .stopGen sid =>
    if st.hasOutstanding sid then (st, [])
    else
      let pc : PendingCancellation := { sessionId := sid, issuedAt := st.now, resolved := false }
      (tick { st with cancellations := st.cancellations ++ [pc] }, [.stopCommand sid])
  | .submitToolResult sid tcid result =>
    match st.findTabOf sid with
    | none => (st, [.invalidToolResultLog])
    | some t =>
      let s := (st.tabs t).active
      if s.suspended && s.toolCalls.any (fun tc => tc.id == tcid && !tc.resolved) then
        let tabs' := fun u => if u = t then { st.tabs t with active := s.resolveTool tcid } else st.tabs u
        (tick { st with tabs := tabs' }, [.toolResultCommand sid tcid result])
      else (st, [.invalidToolResultLog])
  | .cancelTimeout sid =>
    (tick (st.applyFrame (.ack sid)), [.cancellationTimeoutLog sid])

/-- Modelled from the spec: run the engine from the initial state over an
event trace, collecting only the state. -/
def run (evs : List Event) : EngineState :=
  evs.foldl (fun s e => (step s e).1) initState

/-- Modelled from the spec: the sessions a tab owns, the active one plus
the detached history. -/
def sessionsOfTab (tb : TabState) : List Session :=
  tb.active :: tb.history

/-- Modelled from the spec: a session counts as live while it is pending or
streaming. -/
def liveStatus : SessionStatus → Bool
  | .pending => true
  | .streaming => true
  | _ => false

/-- Modelled from the spec: the active session of the tab the caller is
looking at. -/
def EngineState.activeSession (st : EngineState) : Session :=
  (st.tabs st.activeTab).active

/-- Modelled from the spec: the isStreaming flag of the public interface,
true while the active tab has a streaming session. -/
def EngineState.isStreaming (st : EngineState) : Bool :=
  match st.activeSession.status with
  | .streaming => true
  | _ => false

/-- Modelled from the spec: currentStreamingMessage of the public
interface, the in-progress assistant message of the active tab while a
response streams, and null otherwise. -/
def EngineState.currentStreamingMessage (st : EngineState) : Option Message :=
  if st.activeSession.status = .streaming then st.activeSession.messages.getLast?
  else none

/-- Structural invariant of reachable engine states: detached history
sessions are never live, every locally generated identifier in use is below
the allocation counter, and a streaming session always owns an in-progress
assistant message in last position. -/
def Good (st : EngineState) : Prop :=
  (∀ u s, s ∈ (st.tabs u).history → liveStatus s.status = false)
  ∧ (∀ u s, s ∈ sessionsOfTab (st.tabs u) → ∀ n, s.sessionId = .loc n → n < st.nextLocalId)
  ∧ (∀ u, (st.tabs u).active.status = .streaming →
      ∃ m, (st.tabs u).active.messages.getLast? = some m ∧ m.role = .assistant)

/-- Example raw inbound message of the given type and sessionId. -/
def rawOf (ty sid : String) : RawMessage :=
  { type := some ty, sessionId := some sid, content := none,
    errDescriptor := none, toolCallId := none, tool := none }

/-- Example raw delta message carrying a content fragment. -/
def rawDeltaOf (sid c : String) : RawMessage :=
  { rawOf "delta" sid with content := some c }

/-- Example malformed raw message with no sessionId. -/
def rawNoSession : RawMessage :=
  { type := some "delta", sessionId := none, content := some "x",
    errDescriptor := none, toolCallId := none, tool := none }

/-- Example engine state after one send on the chat tab. -/
def exSt : EngineState := run [Event.send "chat" "Hello" true []]

/-- Example tab state with a pending unconfirmed session. -/
def exPendingTab : TabState := exSt.tabs "chat"

/-- Example engine state in which the chat tab was confirmed as session s0,
a new chat was started, and the fresh session was confirmed as s1. -/
def exStaleSt : EngineState :=
  ((step (exSt.processFrames [Frame.start "s0"]) (Event.startNewChat "chat")).1).processFrames [Frame.start "s1"]

/-- Example engine state with one surfaced tool call already resolved. -/
def exToolSt : EngineState :=
  (step (exSt.processFrames [Frame.start "s1", Frame.tool_call "s1" "t1" "browser"]) (Event.submitToolResult "s1" "t1" "ok")).1

/-- Example engine state with one outstanding cancellation. -/
def exStopSt : EngineState := run [Event.stopGen "s1"]

/-- Example event trace that leaves the chat tab streaming. -/
def exStreamEvents : List Event :=
  [Event.send "chat" "Hello" true [], Event.recv (rawOf "start" "s1"),
   Event.recv (rawDeltaOf "s1" "Hi ")]

/-- Modelled from the spec: the flag a terminal frame leaves on the frozen
in-progress Message: an error frame sets isError, a cancellation ack sets
isStopped, the end frame sets no flag. -/
def terminalMark : Frame → Message → Message
  | .error _ _, m => markError m
  | .ack _, m => markStopped m
  | _, m => m

/-- Modelled from the spec: the terminal session status each terminal frame
produces: complete for end, errored for an error frame, stopped for the
cancellation ack. -/
def terminalStatus : Frame → SessionStatus
  | .error _ _ => .errored
  | .ack _ => .stopped
  | _ => .complete

/-! ### Helper lemmas about modifyLast -/

theorem modifyLast_nil (g : Message → Message) : modifyLast g [] = [] := rfl

theorem modifyLast_cons_cons (g : Message → Message) (m m' : Message)
    (ms : List Message) :
    modifyLast g (m :: m' :: ms) = m :: modifyLast g (m' :: ms) := rfl

theorem modifyLast_append_last (g : Message → Message) (m : Message) :
    ∀ ms : List Message, modifyLast g (ms ++ [m]) = ms ++ [g m] := by
  intro ms
  induction ms with
  | nil => rfl
  | cons m0 ms ih =>
    cases ms with
    | nil => rfl
    | cons m' ms' =>
      simp only [List.cons_append] at ih ⊢
      rw [modifyLast_cons_cons, ih]

theorem modifyLast_id (ms : List Message) : modifyLast (fun m => m) ms = ms := by
  rcases List.eq_nil_or_concat ms with rfl | ⟨xs, x, rfl⟩
  · rfl
  · rw [List.concat_eq_append, modifyLast_append_last]

theorem modifyLast_comp (g h : Message → Message) (ms : List Message) :
    modifyLast g (modifyLast h ms) = modifyLast (fun m => g (h m)) ms := by
  rcases List.eq_nil_or_concat ms with rfl | ⟨xs, x, rfl⟩
  · rfl
  · rw [List.concat_eq_append, modifyLast_append_last, modifyLast_append_last,
      modifyLast_append_last]

theorem getLast?_modifyLast (g : Message → Message) (ms : List Message) :
    (modifyLast g ms).getLast? = ms.getLast?.map g := by
  rcases List.eq_nil_or_concat ms with rfl | ⟨xs, x, rfl⟩
  · rfl
  · rw [List.concat_eq_append, modifyLast_append_last, List.getLast?_concat,
      List.getLast?_concat]
    rfl

/-! ### Reduction lemmas for the per-session assembler -/

theorem applyFrame_start_pending (s : Session) (fsid : String)
    (hp : s.status = .pending) (hm : startMatches s fsid = true) :
    s.applyFrame (.start fsid)
      = { s with sessionId := .server fsid, status := .streaming,
                 suspended := false,
                 messages := s.messages ++ [newAssistantMessage] } := by
  simp only [Session.applyFrame]
  rw [if_pos ⟨hp, hm⟩]

theorem applyFrame_delta_streaming (s : Session) (fsid d : String)
    (hid : s.sessionId = .server fsid) (hst : s.status = .streaming)
    (hsu : s.suspended = false) :
    s.applyFrame (.delta fsid d)
      = { s with messages := modifyLast (appendContent d) s.messages } := by
  simp only [Session.applyFrame]
  rw [if_pos ⟨hid, hst, hsu⟩]

theorem applyFrame_endf_streaming (s : Session) (fsid : String)
    (hid : s.sessionId = .server fsid) (hst : s.status = .streaming) :
    s.applyFrame (.endf fsid) = { s with status := .complete, suspended := false } := by
  simp only [Session.applyFrame]
  rw [if_pos ⟨hid, hst⟩]

theorem applyFrame_error_streaming (s : Session) (fsid e : String)
    (hid : s.sessionId = .server fsid) (hst : s.status = .streaming) :
    s.applyFrame (.error fsid e)
      = { s with status := .errored, suspended := false,
                 messages := modifyLast markError s.messages } := by
  simp only [Session.applyFrame]
  rw [if_pos ⟨hid, hst⟩]

theorem applyFrame_ack_streaming (s : Session) (fsid : String)
    (hid : s.sessionId = .server fsid) (hst : s.status = .streaming) :
    s.applyFrame (.ack fsid)
      = { s with status := .stopped, suspended := false,
                 messages := modifyLast markStopped s.messages } := by
  simp only [Session.applyFrame]
  rw [if_pos ⟨hid, hst⟩]

theorem applyFrame_frozen (s : Session) (f : Frame)
    (h1 : s.status ≠ .pending) (h2 : s.status ≠ .streaming) :
    s.applyFrame f = s := by
  cases f with
  | start fsid =>
    simp only [Session.applyFrame]
    rw [if_neg]
    rintro ⟨h, -⟩
    exact h1 h
  | delta fsid d =>
    simp only [Session.applyFrame]
    rw [if_neg]
    rintro ⟨-, h, -⟩
    exact h2 h
  | endf fsid =>
    simp only [Session.applyFrame]
    rw [if_neg]
    rintro ⟨-, h⟩
    exact h2 h
  | error fsid e =>
    simp only [Session.applyFrame]
    rw [if_neg]
    rintro ⟨-, h⟩
    exact h2 h
  | tool_call fsid tcid tl =>
    simp only [Session.applyFrame]
    rw [if_neg]
    rintro ⟨-, h, -⟩
    exact h2 h
  | ack fsid =>
    simp only [Session.applyFrame]
    rw [if_neg]
    rintro ⟨-, h⟩
    exact h2 h

theorem applyFrame_mismatch (s : Session) (f : Frame) (sid : String)
    (hid : s.sessionId = .server sid) (hne : f.sid ≠ sid) :
    s.applyFrame f = s := by
  cases f with
  | start fsid =>
    simp only [Session.applyFrame]
    rw [if_neg]
    rintro ⟨-, hm⟩
    rw [startMatches, hid] at hm
    exact hne (beq_iff_eq.mp hm).symm
  | delta fsid d =>
    simp only [Session.applyFrame]
    rw [if_neg]
    rintro ⟨h, -⟩
    rw [hid] at h
    exact hne (SessionId.server.inj h).symm
  | endf fsid =>
    simp only [Session.applyFrame]
    rw [if_neg]
    rintro ⟨h, -⟩
    rw [hid] at h
    exact hne (SessionId.server.inj h).symm
  | error fsid e =>
    simp only [Session.applyFrame]
    rw [if_neg]
    rintro ⟨h, -⟩
    rw [hid] at h
    exact hne (SessionId.server.inj h).symm
  | tool_call fsid tcid tl =>
    simp only [Session.applyFrame]
    rw [if_neg]
    rintro ⟨h, -⟩
    rw [hid] at h
    exact hne (SessionId.server.inj h).symm
  | ack fsid =>
    simp only [Session.applyFrame]
    rw [if_neg]
    rintro ⟨h, -⟩
    rw [hid] at h
    exact hne (SessionId.server.inj h).symm

/-- Content effect of a whole receipt-ordered block of delta fragments. -/
def appendJoin (ds : List String) (m : Message) : Message :=
  { m with content := ds.foldl (fun c d => c ++ d) m.content }

theorem deltas_foldl (sid : String) (ds : List String) :
    ∀ s : Session, s.sessionId = .server sid → s.status = .streaming →
      s.suspended = false →
      (ds.map (Frame.delta sid)).foldl Session.applyFrame s
        = { s with messages := modifyLast (appendJoin ds) s.messages } := by
  induction ds with
  | nil =>
    intro s hid hst hsu
    show s = { s with messages := modifyLast (appendJoin []) s.messages }
    rw [show appendJoin [] = (fun m => m) from funext fun m => rfl, modifyLast_id]
  | cons d ds ih =>
    intro s hid hst hsu
    rw [List.map_cons, List.foldl_cons, applyFrame_delta_streaming s sid d hid hst hsu]
    rw [ih { s with messages := modifyLast (appendContent d) s.messages } hid hst hsu]
    show { s with messages := modifyLast (appendJoin ds) (modifyLast (appendContent d) s.messages) }
      = { s with messages := modifyLast (appendJoin (d :: ds)) s.messages }
    rw [modifyLast_comp]
    rfl

theorem startMatches_loc (s : Session) (fsid : String) (k : Nat)
    (hl : s.sessionId = .loc k) : startMatches s fsid = true := by
  simp [startMatches, hl]

theorem TabState.processFrames_eq (tb : TabState) (fs : List Frame) :
    tb.processFrames fs = { tb with active := fs.foldl Session.applyFrame tb.active } := by
  induction fs generalizing tb with
  | nil => rfl
  | cons f fs ih =>
    show (tb.applyFrame f).processFrames fs = _
    rw [ih]
    rfl

theorem TabState.processFrames_frozen (tb : TabState)
    (h1 : tb.active.status ≠ .pending) (h2 : tb.active.status ≠ .streaming) :
    ∀ fs : List Frame, tb.processFrames fs = tb := by
  intro fs
  induction fs with
  | nil => rfl
  | cons f fs ih =>
    show (tb.applyFrame f).processFrames fs = tb
    have hfix : tb.applyFrame f = tb := by
      show { tb with active := tb.active.applyFrame f } = tb
      rw [applyFrame_frozen tb.active f h1 h2]
    rw [hfix, ih]

theorem EngineState.applyFrame_tabs (st : EngineState) (f : Frame) :
    (st.applyFrame f).tabs = fun t => (st.tabs t).applyFrame f := by
  cases f <;> rfl

theorem EngineState.processFrames_tabs :
    ∀ (fs : List Frame) (st : EngineState) (t : String),
      (st.processFrames fs).tabs t = (st.tabs t).processFrames fs := by
  intro fs
  induction fs with
  | nil => intro st t; rfl
  | cons f fs ih =>
    intro st t
    show ((st.applyFrame f).processFrames fs).tabs t = _
    rw [ih]
    show ((st.applyFrame f).tabs t).processFrames fs = ((st.tabs t).applyFrame f).processFrames fs
    rw [EngineState.applyFrame_tabs]

theorem EngineState.applyFrame_nextLocalId (st : EngineState) (f : Frame) :
    (st.applyFrame f).nextLocalId = st.nextLocalId := by
  cases f <;> rfl

theorem EngineState.applyFrame_knownTabs (st : EngineState) (f : Frame) :
    (st.applyFrame f).knownTabs = st.knownTabs := by
  cases f <;> rfl

theorem EngineState.applyFrame_activeTab (st : EngineState) (f : Frame) :
    (st.applyFrame f).activeTab = st.activeTab := by
  cases f <;> rfl

theorem step_stopGen_tabs (st : EngineState) (sid : String) :
    ((step st (Event.stopGen sid)).1).tabs = st.tabs := by
  by_cases h : st.hasOutstanding sid = true <;> simp [step, h]

theorem processFrames_tabs_congr :
    ∀ (fs : List Frame) (st st' : EngineState), st.tabs = st'.tabs →
      (st.processFrames fs).tabs = (st'.processFrames fs).tabs := by
  intro fs
  induction fs with
  | nil => intro st st' h; exact h
  | cons f fs ih =>
    intro st st' h
    show ((st.applyFrame f).processFrames fs).tabs = ((st'.applyFrame f).processFrames fs).tabs
    apply ih
    rw [EngineState.applyFrame_tabs, EngineState.applyFrame_tabs, h]

theorem applyFrame_sessionId (s : Session) (f : Frame) :
    (s.applyFrame f).sessionId = s.sessionId
      ∨ ∃ fsid, (s.applyFrame f).sessionId = .server fsid := by
  cases f with
  | start fsid =>
    simp only [Session.applyFrame]
    split
    · exact Or.inr ⟨fsid, rfl⟩
    · exact Or.inl rfl
  | delta fsid d => simp only [Session.applyFrame]; split <;> exact Or.inl rfl
  | endf fsid => simp only [Session.applyFrame]; split <;> exact Or.inl rfl
  | error fsid e => simp only [Session.applyFrame]; split <;> exact Or.inl rfl
  | tool_call fsid tcid tl => simp only [Session.applyFrame]; split <;> exact Or.inl rfl
  | ack fsid => simp only [Session.applyFrame]; split <;> exact Or.inl rfl

theorem applyFrame_last_assistant (s : Session) (f : Frame)
    (hsa : s.status = .streaming → ∃ m, s.messages.getLast? = some m ∧ m.role = .assistant)
    (hst : (s.applyFrame f).status = .streaming) :
    ∃ m, (s.applyFrame f).messages.getLast? = some m ∧ m.role = .assistant := by
  cases f with
  | start fsid =>
    revert hst
    simp only [Session.applyFrame]
    split
    · intro hstr
      exact ⟨newAssistantMessage, by rw [List.getLast?_concat], rfl⟩
    · exact hsa
  | delta fsid d =>
    revert hst
    simp only [Session.applyFrame]
    split
    · intro hs
      obtain ⟨m, hm, hr⟩ := hsa hs
      refine ⟨appendContent d m, ?_, hr⟩
      rw [getLast?_modifyLast, hm]
      rfl
    · exact hsa
  | endf fsid =>
    revert hst
    simp only [Session.applyFrame]
    split
    · intro hs
      exact absurd hs (by simp)
    · exact hsa
  | error fsid e =>
    revert hst
    simp only [Session.applyFrame]
    split
    · intro hs
      exact absurd hs (by simp)
    · exact hsa
  | tool_call fsid tcid tl =>
    revert hst
    simp only [Session.applyFrame]
    split
    · exact hsa
    · exact hsa
  | ack fsid =>
    revert hst
    simp only [Session.applyFrame]
    split
    · intro hs
      exact absurd hs (by simp)
    · exact hsa

theorem detachSession_sessionId (s : Session) :
    (detachSession s).sessionId = s.sessionId := by
  cases h : s.status <;> simp [detachSession, h]

theorem detachSession_messages (s : Session) :
    (detachSession s).messages = s.messages := by
  cases h : s.status <;> simp [detachSession, h]

theorem liveStatus_detachSession (s : Session) :
    liveStatus (detachSession s).status = false := by
  cases h : s.status <;> simp [detachSession, h, liveStatus]

theorem good_step (st : EngineState) (ev : Event) (h : Good st) : Good (step st ev).1 := by
  obtain ⟨hHD, hLB, hSA⟩ := h
  cases ev with
  | recv raw =>
    cases hdec : decode raw with
    | error e =>
      simp only [step, hdec]
      exact ⟨hHD, hLB, hSA⟩
    | ok f =>
      simp only [step, hdec, EngineState.applyFrame_tabs, EngineState.applyFrame_nextLocalId]
      refine ⟨?_, ?_, ?_⟩
      · intro u s hs
        exact hHD u s hs
      · intro u s hs n hn
        have hs' : s = (st.tabs u).active.applyFrame f ∨ s ∈ (st.tabs u).history :=
          List.mem_cons.mp hs
        rcases hs' with rfl | hmem
        · rcases applyFrame_sessionId (st.tabs u).active f with heq | ⟨fsid, heq⟩
          · rw [heq] at hn
            exact hLB u (st.tabs u).active (List.mem_cons_self _ _) n hn
          · rw [heq] at hn
            exact absurd hn (by simp)
        · exact hLB u s (List.mem_cons_of_mem _ hmem) n hn
      · intro u hstr
        exact applyFrame_last_assistant (st.tabs u).active f (hSA u) hstr
  | send tab content visible files =>
    by_cases hlive : (st.tabs tab).active.status = .pending ∨ (st.tabs tab).active.status = .streaming
    · simp only [step, if_pos hlive]
      exact ⟨hHD, hLB, hSA⟩
    · simp only [step, if_neg hlive]
      refine ⟨?_, ?_, ?_⟩
      · intro u s hs
        by_cases hu : u = tab
        · subst hu
          simp only [if_pos rfl] at hs
          exact hHD u s hs
        · simp only [if_neg hu] at hs
          exact hHD u s hs
      · intro u s hs n hn
        by_cases hu : u = tab
        · subst hu
          simp only [if_pos rfl] at hs
          have hs' : s = _ ∨ s ∈ (st.tabs u).history := List.mem_cons.mp hs
          rcases hs' with rfl | hmem
          · exact hLB u (st.tabs u).active (List.mem_cons_self _ _) n hn
          · exact hLB u s (List.mem_cons_of_mem _ hmem) n hn
        · simp only [if_neg hu] at hs
          exact hLB u s hs n hn
      · intro u hstr
        by_cases hu : u = tab
        · subst hu
          simp only [if_pos rfl] at hstr ⊢
          exact absurd hstr (by simp)
        · simp only [if_neg hu] at hstr ⊢
          exact hSA u hstr
  | switchTab tab =>
    exact ⟨hHD, hLB, hSA⟩
  | startNewChat tab =>
    simp only [step]
    refine ⟨?_, ?_, ?_⟩
    · intro u s hs
      by_cases hu : u = tab
      · subst hu
        simp only [if_pos rfl] at hs
        rcases List.mem_append.mp hs with hmem | hmem
        · exact hHD u s hmem
        · rw [List.mem_singleton.mp hmem]
          exact liveStatus_detachSession _
      · simp only [if_neg hu] at hs
        exact hHD u s hs
    · intro u s hs n hn
      by_cases hu : u = tab
      · subst hu
        simp only [if_pos rfl] at hs
        have hs' : s = freshSession u st.nextLocalId .pending
            ∨ s ∈ (st.tabs u).history ++ [detachSession (st.tabs u).active] := List.mem_cons.mp hs
        rcases hs' with rfl | hmem
        · have : n = st.nextLocalId := by
            have := hn
            simp only [freshSession] at this
            exact (SessionId.loc.inj this).symm
          rw [this]
          exact Nat.lt_succ_self _
        · rcases List.mem_append.mp hmem with hmem' | hmem'
          · exact Nat.lt_succ_of_lt (hLB u s (List.mem_cons_of_mem _ hmem') n hn)
          · rw [List.mem_singleton.mp hmem'] at hn
            rw [detachSession_sessionId] at hn
            exact Nat.lt_succ_of_lt (hLB u (st.tabs u).active (List.mem_cons_self _ _) n hn)
      · simp only [if_neg hu] at hs
        exact Nat.lt_succ_of_lt (hLB u s hs n hn)
    · intro u hstr
      by_cases hu : u = tab
      · subst hu
        simp only [if_pos rfl] at hstr
        exact absurd hstr (by simp [freshSession])
      · simp only [if_neg hu] at hstr ⊢
        exact hSA u hstr
  | stopGen sid =>
    by_cases hout : st.hasOutstanding sid = true
    · simp only [step, if_pos hout]
      exact ⟨hHD, hLB, hSA⟩
    · simp only [step, if_neg hout]
      exact ⟨hHD, hLB, hSA⟩
  | submitToolResult sid tcid result =>
    cases hft : st.findTabOf sid with
    | none =>
      simp only [step, hft]
      exact ⟨hHD, hLB, hSA⟩
    | some t2 =>
      simp only [step, hft]
      by_cases hcond : ((st.tabs t2).active.suspended && (st.tabs t2).active.toolCalls.any (fun tc => tc.id == tcid && !tc.resolved)) = true
      · simp only [if_pos hcond]
        refine ⟨?_, ?_, ?_⟩
        · intro u s hs
          by_cases hu : u = t2
          · subst hu
            simp only [if_pos rfl] at hs
            exact hHD u s hs
          · simp only [if_neg hu] at hs
            exact hHD u s hs
        · intro u s hs n hn
          by_cases hu : u = t2
          · subst hu
            simp only [if_pos rfl] at hs
            have hs' : s = _ ∨ s ∈ (st.tabs u).history := List.mem_cons.mp hs
            rcases hs' with rfl | hmem
            · exact hLB u (st.tabs u).active (List.mem_cons_self _ _) n hn
            · exact hLB u s (List.mem_cons_of_mem _ hmem) n hn
          · simp only [if_neg hu] at hs
            exact hLB u s hs n hn
        · intro u hstr
          by_cases hu : u = t2
          · subst hu
            simp only [if_pos rfl] at hstr ⊢
            exact hSA u hstr
          · simp only [if_neg hu] at hstr ⊢
            exact hSA u hstr
      · simp only [if_neg hcond]
        exact ⟨hHD, hLB, hSA⟩
  | cancelTimeout sid =>
    simp only [step, EngineState.applyFrame_tabs, EngineState.applyFrame_nextLocalId]
    refine ⟨?_, ?_, ?_⟩
    · intro u s hs
      exact hHD u s hs
    · intro u s hs n hn
      have hs' : s = (st.tabs u).active.applyFrame (.ack sid) ∨ s ∈ (st.tabs u).history :=
        List.mem_cons.mp hs
      rcases hs' with rfl | hmem
      · rcases applyFrame_sessionId (st.tabs u).active (.ack sid) with heq | ⟨fsid, heq⟩
        · rw [heq] at hn
          exact hLB u (st.tabs u).active (List.mem_cons_self _ _) n hn
        · rw [heq] at hn
          exact absurd hn (by simp)
      · exact hLB u s (List.mem_cons_of_mem _ hmem) n hn
    · intro u hstr
      exact applyFrame_last_assistant (st.tabs u).active (.ack sid) (hSA u) hstr

theorem good_init : Good initState := by
  refine ⟨?_, ?_, ?_⟩
  · intro u s hs
    exact absurd hs (List.not_mem_nil s)
  · intro u s hs n hn
    have hs' : s = freshSession u 0 .idle ∨ s ∈ ([] : List Session) := List.mem_cons.mp hs
    rcases hs' with rfl | hmem
    · have h0 : (0 : Nat) = n := SessionId.loc.inj hn
      rw [← h0]
      exact Nat.one_pos
    · exact absurd hmem (List.not_mem_nil s)
  · intro u hstr
    exact SessionStatus.noConfusion hstr

theorem good_foldl :
    ∀ (evs : List Event) (st : EngineState), Good st →
      Good (evs.foldl (fun s e => (step s e).1) st) := by
  intro evs
  induction evs with
  | nil => intro st h; exact h
  | cons e evs ih =>
    intro st h
    exact ih _ (good_step st e h)

theorem good_run (evs : List Event) : Good (run evs) :=
  good_foldl evs initState good_init

theorem mem_of_getLast?_eq {α : Type} (l : List α) (a : α)
    (h : l.getLast? = some a) : a ∈ l := by
  rcases List.eq_nil_or_concat l with rfl | ⟨xs, x, rfl⟩
  · exact absurd h (by simp)
  · rw [List.concat_eq_append] at h ⊢
    rw [List.getLast?_concat] at h
    rw [← Option.some.inj h]
    exact List.mem_append_right _ (List.mem_singleton.mpr rfl)

/-! ### Claim theorems -/

/-- C1: for every session and every sequence of delta frames d1..dn received
for it before its terminal frame, whichever of end, error or cancellation
ack that terminal is, the assembled assistant Message content equals the
concatenation d1+d2+...+dn in receipt order, with no fragment dropped,
reordered or duplicated; the terminal frame only freezes the content,
setting the matching status (in particular complete for end) and flag. -/
theorem delta_assembly_concat (tb : TabState) (sid : String) (ds : List String) (k : Nat) (tf : Frame)
    (hp : tb.active.status = .pending) (hl : tb.active.sessionId = .loc k)
    (hterm : tf = Frame.endf sid ∨ (∃ e, tf = Frame.error sid e) ∨ tf = Frame.ack sid) :
    (tb.processFrames (Frame.start sid :: (ds.map (Frame.delta sid) ++ [tf]))).active.messages
        = tb.active.messages ++ [terminalMark tf { newAssistantMessage with content := String.join ds }]
      ∧ (tb.processFrames (Frame.start sid :: (ds.map (Frame.delta sid) ++ [tf]))).active.status
        = terminalStatus tf := by
  have hm : startMatches tb.active sid = true := startMatches_loc tb.active sid k hl
  have key : (Frame.start sid :: (ds.map (Frame.delta sid) ++ [tf])).foldl Session.applyFrame tb.active
      = Session.applyFrame { tb.active with
          sessionId := .server sid, status := .streaming, suspended := false,
          messages := tb.active.messages ++ [{ newAssistantMessage with content := String.join ds }] } tf := by
    rw [List.foldl_cons, List.foldl_append, applyFrame_start_pending tb.active sid hp hm]
    rw [deltas_foldl sid ds { tb.active with
          sessionId := .server sid, status := .streaming, suspended := false,
          messages := tb.active.messages ++ [newAssistantMessage] } rfl rfl rfl]
    show Session.applyFrame ({ tb.active with
          sessionId := .server sid, status := .streaming, suspended := false,
          messages := modifyLast (appendJoin ds) (tb.active.messages ++ [newAssistantMessage]) } : Session) tf = _
    rw [show ({ tb.active with
          sessionId := .server sid, status := .streaming, suspended := false,
          messages := modifyLast (appendJoin ds) (tb.active.messages ++ [newAssistantMessage]) } : Session)
        = { tb.active with
            sessionId := .server sid, status := .streaming, suspended := false,
            messages := tb.active.messages ++ [{ newAssistantMessage with content := String.join ds }] } from by
      rw [modifyLast_append_last]
      rfl]
  rcases hterm with rfl | ⟨e, rfl⟩ | rfl
  · constructor
    · rw [TabState.processFrames_eq, key, applyFrame_endf_streaming _ sid rfl rfl]
      rfl
    · rw [TabState.processFrames_eq, key, applyFrame_endf_streaming _ sid rfl rfl]
      rfl
  · constructor
    · rw [TabState.processFrames_eq, key, applyFrame_error_streaming _ sid e rfl rfl]
      show modifyLast markError (tb.active.messages ++ [{ newAssistantMessage with content := String.join ds }]) = _
      rw [modifyLast_append_last]
      rfl
    · rw [TabState.processFrames_eq, key, applyFrame_error_streaming _ sid e rfl rfl]
      rfl
  · constructor
    · rw [TabState.processFrames_eq, key, applyFrame_ack_streaming _ sid rfl rfl]
      show modifyLast markStopped (tb.active.messages ++ [{ newAssistantMessage with content := String.join ds }]) = _
      rw [modifyLast_append_last]
      rfl
    · rw [TabState.processFrames_eq, key, applyFrame_ack_streaming _ sid rfl rfl]
      rfl

/-- Witness for C1: the example scenario, deltas Hi and there assemble to
the assistant Message Hi there, both under the end terminal (status
complete) and under an error terminal (content preserved, status
errored). -/
theorem delta_assembly_concat_witness :
    ((exPendingTab.processFrames (Frame.start "s1" :: (["Hi ", "there"].map (Frame.delta "s1") ++ [Frame.endf "s1"]))).active.messages
        = exPendingTab.active.messages ++ [terminalMark (Frame.endf "s1") { newAssistantMessage with content := String.join ["Hi ", "there"] }]
      ∧ (exPendingTab.processFrames (Frame.start "s1" :: (["Hi ", "there"].map (Frame.delta "s1") ++ [Frame.endf "s1"]))).active.status
        = terminalStatus (Frame.endf "s1"))
      ∧ ((exPendingTab.processFrames (Frame.start "s1" :: (["Hi ", "there"].map (Frame.delta "s1") ++ [Frame.error "s1" "boom"]))).active.messages
        = exPendingTab.active.messages ++ [terminalMark (Frame.error "s1" "boom") { newAssistantMessage with content := String.join ["Hi ", "there"] }]
      ∧ (exPendingTab.processFrames (Frame.start "s1" :: (["Hi ", "there"].map (Frame.delta "s1") ++ [Frame.error "s1" "boom"]))).active.status
        = terminalStatus (Frame.error "s1" "boom")) :=
  ⟨delta_assembly_concat exPendingTab "s1" ["Hi ", "there"] 0 (Frame.endf "s1") (by decide) (by decide) (Or.inl rfl),
   delta_assembly_concat exPendingTab "s1" ["Hi ", "there"] 0 (Frame.error "s1" "boom") (by decide) (by decide) (Or.inr (Or.inl ⟨"boom", rfl⟩))⟩

/-- C2: stopping a session mid-stream after deltas d1, d2 (the cancellation
ack arriving after them) freezes the assistant Message content at d1+d2
with the isStopped flag and status stopped, and every frame arriving later,
in particular any delta carrying the same sessionId, leaves the tab
unchanged. -/
theorem stopped_session_frozen (st : EngineState) (t sid d1 d2 : String) (k : Nat)
    (hp : (st.tabs t).active.status = .pending)
    (hl : (st.tabs t).active.sessionId = .loc k) :
    ((((step (st.processFrames [Frame.start sid, Frame.delta sid d1, Frame.delta sid d2]) (Event.stopGen sid)).1).processFrames [Frame.ack sid]).tabs t).active.messages
        = (st.tabs t).active.messages ++ [{ newAssistantMessage with content := d1 ++ d2, isStopped := true }]
      ∧ ((((step (st.processFrames [Frame.start sid, Frame.delta sid d1, Frame.delta sid d2]) (Event.stopGen sid)).1).processFrames [Frame.ack sid]).tabs t).active.status = SessionStatus.stopped
      ∧ ∀ fs : List Frame,
          (((((step (st.processFrames [Frame.start sid, Frame.delta sid d1, Frame.delta sid d2]) (Event.stopGen sid)).1).processFrames [Frame.ack sid]).processFrames fs).tabs t)
            = ((((step (st.processFrames [Frame.start sid, Frame.delta sid d1, Frame.delta sid d2]) (Event.stopGen sid)).1).processFrames [Frame.ack sid]).tabs t) := by
  have hm : startMatches (st.tabs t).active sid = true := startMatches_loc _ sid k hl
  have skey : [Frame.start sid, Frame.delta sid d1, Frame.delta sid d2].foldl Session.applyFrame (st.tabs t).active
      = { (st.tabs t).active with
          sessionId := .server sid, status := .streaming, suspended := false,
          messages := (st.tabs t).active.messages ++ [{ newAssistantMessage with content := d1 ++ d2 }] } := by
    show (Frame.start sid :: List.map (Frame.delta sid) [d1, d2]).foldl Session.applyFrame (st.tabs t).active = _
    rw [List.foldl_cons, applyFrame_start_pending _ sid hp hm]
    rw [deltas_foldl sid [d1, d2] { (st.tabs t).active with
          sessionId := .server sid, status := .streaming, suspended := false,
          messages := (st.tabs t).active.messages ++ [newAssistantMessage] } rfl rfl rfl]
    show ({ (st.tabs t).active with
            sessionId := .server sid, status := .streaming, suspended := false,
            messages := modifyLast (appendJoin [d1, d2]) ((st.tabs t).active.messages ++ [newAssistantMessage]) } : Session) = _
    rw [modifyLast_append_last]
    rfl
  have hkey : ((((step (st.processFrames [Frame.start sid, Frame.delta sid d1, Frame.delta sid d2]) (Event.stopGen sid)).1).processFrames [Frame.ack sid]).tabs t)
      = { st.tabs t with
          active := { (st.tabs t).active with
                      sessionId := .server sid, status := .stopped, suspended := false,
                      messages := (st.tabs t).active.messages ++ [{ newAssistantMessage with content := d1 ++ d2, isStopped := true }] } } := by
    rw [EngineState.processFrames_tabs, step_stopGen_tabs, EngineState.processFrames_tabs]
    rw [TabState.processFrames_eq, TabState.processFrames_eq, skey]
    show ({ st.tabs t with
            active := Session.applyFrame { (st.tabs t).active with
                                           sessionId := .server sid, status := .streaming, suspended := false,
                                           messages := (st.tabs t).active.messages ++ [{ newAssistantMessage with content := d1 ++ d2 }] } (Frame.ack sid) } : TabState) = _
    rw [applyFrame_ack_streaming _ sid rfl rfl]
    show ({ st.tabs t with
            active := { (st.tabs t).active with
                        sessionId := .server sid, status := .stopped, suspended := false,
                        messages := modifyLast markStopped ((st.tabs t).active.messages ++ [{ newAssistantMessage with content := d1 ++ d2 }]) } } : TabState) = _
    rw [modifyLast_append_last]
    rfl
  refine ⟨?_, ?_, ?_⟩
  · rw [hkey]
  · rw [hkey]
  · intro fs
    rw [EngineState.processFrames_tabs, hkey]
    exact TabState.processFrames_frozen _ (fun h => SessionStatus.noConfusion h) (fun h => SessionStatus.noConfusion h) fs

/-- Witness for C2: the example scenario frozen at Pa plus r. -/
theorem stopped_session_frozen_witness :
    ((((step (exSt.processFrames [Frame.start "s1", Frame.delta "s1" "Pa", Frame.delta "s1" "r"]) (Event.stopGen "s1")).1).processFrames [Frame.ack "s1"]).tabs "chat").active.messages
        = (exSt.tabs "chat").active.messages ++ [{ newAssistantMessage with content := "Pa" ++ "r", isStopped := true }]
      ∧ ((((step (exSt.processFrames [Frame.start "s1", Frame.delta "s1" "Pa", Frame.delta "s1" "r"]) (Event.stopGen "s1")).1).processFrames [Frame.ack "s1"]).tabs "chat").active.status = SessionStatus.stopped
      ∧ ∀ fs : List Frame,
          (((((step (exSt.processFrames [Frame.start "s1", Frame.delta "s1" "Pa", Frame.delta "s1" "r"]) (Event.stopGen "s1")).1).processFrames [Frame.ack "s1"]).processFrames fs).tabs "chat")
            = ((((step (exSt.processFrames [Frame.start "s1", Frame.delta "s1" "Pa", Frame.delta "s1" "r"]) (Event.stopGen "s1")).1).processFrames [Frame.ack "s1"]).tabs "chat") :=
  stopped_session_frozen exSt "chat" "s1" "Pa" "r" 0 (by decide) (by decide)

/-- C3: an inbound frame whose sessionId differs from the server-confirmed
sessionId of the session currently active on a tab is discarded: the tab,
its active session and every Message in it are left unchanged. -/
theorem stale_frame_discarded (st : EngineState) (f : Frame) (t sid : String)
    (hid : (st.tabs t).active.sessionId = .server sid) (hne : f.sid ≠ sid) :
    (st.applyFrame f).tabs t = st.tabs t := by
  rw [EngineState.applyFrame_tabs]
  show { st.tabs t with active := (st.tabs t).active.applyFrame f } = st.tabs t
  rw [applyFrame_mismatch _ f sid hid hne]

/-- Witness for C3: a stale delta for superseded session s0, arriving after
startNewChat moved the tab to s1, leaves the tab untouched. -/
theorem stale_frame_discarded_witness :
    (exStaleSt.applyFrame (Frame.delta "s0" " more")).tabs "chat" = exStaleSt.tabs "chat" :=
  stale_frame_discarded exStaleSt (Frame.delta "s0" " more") "chat" "s1" (by decide) (by decide)

/-- C4: in every reachable engine state, at most one session per tab,
counting the active session and the detached history, is pending or
streaming; the bound is per tab, so different tabs may stream
concurrently. -/
theorem at_most_one_live_session_per_tab (evs : List Event) (t : String) :
    ((sessionsOfTab ((run evs).tabs t)).filter (fun s => liveStatus s.status)).length ≤ 1 := by
  obtain ⟨hHD, -, -⟩ := good_run evs
  show ((((run evs).tabs t).active :: ((run evs).tabs t).history).filter (fun s => liveStatus s.status)).length ≤ 1
  rw [List.filter_cons]
  have hnil : ((run evs).tabs t).history.filter (fun s => liveStatus s.status) = [] := by
    rw [List.filter_eq_nil_iff]
    intro a ha
    simp [hHD t a ha]
  rw [hnil]
  split
  · simp
  · simp

/-- C5: switching tabs A to B and back to A leaves the data of tab A
exactly what frame processing alone produces, including sessions that
continued streaming while A was not active, and restores A as the active
tab; switchTab itself modifies no session. -/
theorem tab_switch_preserves_history (st : EngineState) (A B : String) (fs : List Frame) :
    ((step (((step st (Event.switchTab B)).1).processFrames fs) (Event.switchTab A)).1).tabs A
        = (st.processFrames fs).tabs A
      ∧ ((step (((step st (Event.switchTab B)).1).processFrames fs) (Event.switchTab A)).1).activeTab = A := by
  constructor
  · show (((step st (Event.switchTab B)).1).processFrames fs).tabs A = (st.processFrames fs).tabs A
    exact congrFun (processFrames_tabs_congr fs ((step st (Event.switchTab B)).1) st rfl) A
  · rfl

/-- C6: in every reachable engine state, startNewChat allocates a session
whose sessionId differs from the sessionId of every session, active or
historic, previously on that tab, and the detached old session keeps its
messages retrievable from the history of the tab. -/
theorem startNewChat_fresh_session (evs : List Event) (t : String) :
    ((((step (run evs) (Event.startNewChat t)).1).tabs t).active.sessionId
        ∉ (sessionsOfTab ((run evs).tabs t)).map Session.sessionId)
      ∧ ∃ h ∈ (((step (run evs) (Event.startNewChat t)).1).tabs t).history,
          h.messages = ((run evs).tabs t).active.messages := by
  obtain ⟨-, hLB, -⟩ := good_run evs
  have htab : ((step (run evs) (Event.startNewChat t)).1).tabs t
      = { active := freshSession t (run evs).nextLocalId .pending,
          history := ((run evs).tabs t).history ++ [detachSession ((run evs).tabs t).active] } := by
    show (if t = t then _ else _) = _
    rw [if_pos rfl]
  constructor
  · intro hmem
    rw [htab] at hmem
    obtain ⟨s, hsmem, hsid⟩ := List.mem_map.mp hmem
    exact absurd (hLB t s hsmem (run evs).nextLocalId hsid) (lt_irrefl _)
  · refine ⟨detachSession ((run evs).tabs t).active, ?_, detachSession_messages _⟩
    rw [htab]
    exact List.mem_append_right _ (List.mem_singleton.mpr rfl)

/-- Witness for C6: after one send on the chat tab, starting a new chat
allocates a distinct sessionId and keeps the old messages in history. -/
theorem startNewChat_fresh_session_witness :
    ((((step (run [Event.send "chat" "Hello" true []]) (Event.startNewChat "chat")).1).tabs "chat").active.sessionId
        ∉ (sessionsOfTab ((run [Event.send "chat" "Hello" true []]).tabs "chat")).map Session.sessionId)
      ∧ ∃ h ∈ (((step (run [Event.send "chat" "Hello" true []]) (Event.startNewChat "chat")).1).tabs "chat").history,
          h.messages = ((run [Event.send "chat" "Hello" true []]).tabs "chat").active.messages :=
  startNewChat_fresh_session [Event.send "chat" "Hello" true []] "chat"

/-- C7: a raw inbound message missing its sessionId decodes to a
DecodeError, and any raw message that decodes to a DecodeError is dropped
with only an error log emitted: the engine state, in particular every
session and Message, is unchanged. -/
theorem decode_error_drops_frame (st : EngineState) (raw : RawMessage) (e : DecodeError) :
    (raw.sessionId = none → decode raw = .error .missingSessionId)
      ∧ (decode raw = .error e → step st (Event.recv raw) = (st, [Output.decodeErrorLog e])) := by
  constructor
  · intro hnone
    simp [decode, hnone]
  · intro hdec
    simp [step, hdec]

/-- Witness for C7: a delta without sessionId decodes to the
missingSessionId error and is dropped with no state change. -/
theorem decode_error_drops_frame_witness :
    decode rawNoSession = Except.error DecodeError.missingSessionId
      ∧ step initState (Event.recv rawNoSession) = (initState, [Output.decodeErrorLog DecodeError.missingSessionId]) :=
  ⟨(decode_error_drops_frame initState rawNoSession DecodeError.missingSessionId).1 rfl,
   (decode_error_drops_frame initState rawNoSession DecodeError.missingSessionId).2 rfl⟩

/-- C8: while an unresolved cancellation for a session is outstanding, a
second stop request for it is a no-op: nothing is sent on the stop channel,
no PendingCancellation is created, and the engine state is unchanged. -/
theorem duplicate_stop_noop (st : EngineState) (sid : String)
    (h : st.hasOutstanding sid = true) :
    step st (Event.stopGen sid) = (st, []) := by
  simp [step, h]

/-- Witness for C8: a second stop for session s1 emits nothing and changes
nothing. -/
theorem duplicate_stop_noop_witness :
    step exStopSt (Event.stopGen "s1") = (exStopSt, []) :=
  duplicate_stop_noop exStopSt "s1" (by decide)

/-- C9: submitToolResult for a toolCallId that is unknown or already
resolved fails with the InvalidToolResult condition: no result is
forwarded over the transport and the engine state is unchanged. -/
theorem invalid_tool_result_noop (st : EngineState) (sid tcid res : String)
    (h : st.toolCallOpen sid tcid = false) :
    step st (Event.submitToolResult sid tcid res) = (st, [Output.invalidToolResultLog]) := by
  cases hft : st.findTabOf sid with
  | none => simp [step, hft]
  | some t =>
    have hfalse : (st.tabs t).active.toolCalls.any (fun tc => tc.id == tcid && !tc.resolved) = false := by
      simp only [EngineState.toolCallOpen, hft] at h
      exact h
    simp [step, hft, hfalse]

/-- Witness for C9: re-submitting a result for the already resolved tool
call t1 is rejected without state change. -/
theorem invalid_tool_result_noop_witness :
    step exToolSt (Event.submitToolResult "s1" "t1" "again") = (exToolSt, [Output.invalidToolResultLog]) :=
  invalid_tool_result_noop exToolSt "s1" "t1" "again" (by decide)

/-- C10: in every reachable engine state, currentStreamingMessage is null
whenever isStreaming is false, and whenever it is non-null it is the
in-progress assistant Message of the streaming session of the active
tab. -/
theorem streaming_message_consistent (evs : List Event) :
    ((run evs).isStreaming = false → (run evs).currentStreamingMessage = none)
      ∧ ∀ m, (run evs).currentStreamingMessage = some m →
          (run evs).isStreaming = true ∧ m.role = .assistant
            ∧ m ∈ (run evs).activeSession.messages := by
  obtain ⟨-, -, hSA⟩ := good_run evs
  constructor
  · intro hns
    rw [EngineState.currentStreamingMessage, if_neg]
    intro hq
    have : (run evs).isStreaming = true := by
      simp [EngineState.isStreaming, hq]
    rw [this] at hns
    exact Bool.noConfusion hns
  · intro m hm
    rw [EngineState.currentStreamingMessage] at hm
    by_cases hq : (run evs).activeSession.status = .streaming
    · rw [if_pos hq] at hm
      refine ⟨by simp [EngineState.isStreaming, hq], ?_, mem_of_getLast?_eq _ m hm⟩
      obtain ⟨m', hm', hr⟩ := hSA (run evs).activeTab hq
      have hm2 : (run evs).activeSession.messages.getLast? = some m' := hm'
      rw [hm] at hm2
      rw [Option.some.inj hm2]
      exact hr
    · rw [if_neg hq] at hm
      exact absurd hm (by simp)

/-- Witness for C10: on the empty trace nothing streams and the field is
null; after a start and one delta the field holds the in-progress
assistant message. -/
theorem streaming_message_consistent_witness :
    (run []).currentStreamingMessage = none
      ∧ ((run exStreamEvents).isStreaming = true
          ∧ ({ newAssistantMessage with content := "Hi " } : Message).role = Role.assistant
          ∧ ({ newAssistantMessage with content := "Hi " } : Message) ∈ (run exStreamEvents).activeSession.messages) :=
  ⟨(streaming_message_consistent []).1 (by decide),
   (streaming_message_consistent exStreamEvents).2 { newAssistantMessage with content := "Hi " } (by decide)⟩

end IblChat
